import Mathlib

/-!
Verification of the product-catalog backend in `server.js`.

The server keeps an in-memory object `db = { products: [] }` mirrored to
`database.json`, and an `uploads/` directory of image files.  We embed the
state as `ServerState`: the product list, the parsed contents of the JSON
document (`disk`), and the set of filenames present in the media directory
(`uploads`).  Each HTTP handler becomes a pure function from a state and a
request to a result and a new state.
-/

namespace Zizz

/-- JS truthiness of an optional form-field string (`!name` in the handlers):
`undefined` and the empty string are falsy, every other string is truthy. -/
def truthy : Option String → Bool
  | none => false
  | some s => s != ""

/-- Value of a digit list, most significant first. -/
def digitsVal (cs : List Char) : Nat :=
  cs.foldl (fun a c => a * 10 + (c.toNat - '0'.toNat)) 0

/-- Model of the JS builtin `parseFloat` on a character list, covering the
subset of inputs producible by the multipart form fields: optional leading
spaces, optional sign, decimal digits with an optional fractional part.
`none` stands for NaN (no digits could be parsed). -/
def parseFloatChars (cs0 : List Char) : Option ℚ :=
  let cs1 := cs0.dropWhile (fun c => c == ' ')
  let isNeg : Bool :=
    match cs1 with
    | '-' :: _ => true
    | _ => false
  let cs2 :=
    match cs1 with
    | '-' :: rest => rest
    | '+' :: rest => rest
    | _ => cs1
  let intPart := cs2.takeWhile Char.isDigit
  let rest2 := cs2.dropWhile Char.isDigit
  let fracPart :=
    match rest2 with
    | '.' :: r => r.takeWhile Char.isDigit
    | _ => []
  if intPart = [] ∧ fracPart = [] then none
  else
    let mag : ℚ :=
      if fracPart = [] then (digitsVal intPart : ℚ)
      else (digitsVal intPart : ℚ) +
        (digitsVal fracPart : ℚ) / ((10 : ℚ) ^ fracPart.length)
    some (if isNeg then -mag else mag)

/-- `parseFloat(price)` where `price` is the optional form field; on a missing
field JS computes `parseFloat(undefined) = NaN`, embedded as `none`. -/
def parseFloatJS : Option String → Option ℚ
  | none => none
  | some s => parseFloatChars s.data

/-- A product record as stored in `db.products`.  The handlers only ever set
`id`, `name`, `price`, `description` and `images`; `stock` and `pinned` are
`Option`s because a JS object may lack those keys entirely (`none` = the key
is absent), and `name`/`price` may hold `undefined`/`NaN` after an update. -/
structure Product where
  id : String
  name : Option String
  price : Option ℚ
  description : String
  images : List String
  stock : Option Int
  pinned : Option Bool
deriving DecidableEq

/-- A candidate uploaded file as multer sees it before storing. -/
structure CandidateFile where
  originalname : String
  mimetype : String
  size : Nat
deriving DecidableEq

/-- The multipart request body.  The handlers destructure only `name`,
`price` and `description` (`const { name, price, description } = req.body`);
`stock`, `pinned` and `existingImages[]` are sent by the admin UI but are
never read by any handler in `server.js`. -/
structure RequestBody where
  name : Option String
  price : Option String
  description : Option String
  stock : Option String
  pinned : Option String
  existingImages : List String
deriving DecidableEq

/-- Server state: the in-memory `db.products`, the parsed contents of
`database.json` (written by `saveDatabase`), and the filename set of the
`uploads/` directory. -/
structure ServerState where
  products : List Product
  disk : List Product
  uploads : Finset String
deriving DecidableEq

/-- Outcome of a handler: a JSON product with a status code, a message
object, or an error object. -/
inductive HandlerResult where
  | ok (status : Nat) (p : Product)
  | message (status : Nat) (msg : String)
  | error (status : Nat) (msg : String)
deriving DecidableEq

/-- `fileFilter` from the multer configuration: accept exactly the files
whose declared mimetype starts with `image/`
(`file.mimetype.startsWith('image/')`, embedded on character lists). -/
def fileAllowed (f : CandidateFile) : Bool :=
  "image/".data.isPrefixOf f.mimetype.data

/-- `limits.fileSize = 5 * 1024 * 1024` from the multer configuration. -/
def maxFileSize : Nat := 5 * 1024 * 1024

/-- Batch bound from `upload.array('images', 10)`. -/
def maxFiles : Nat := 10

/-- Write a list of generated filenames into the media directory. -/
def writeAll (u : Finset String) (names : List String) : Finset String :=
  names.foldl (fun a n => insert n a) u

/-- Best-effort removal of a list of filenames (missing entries ignored). -/
def unlinkAll (u : Finset String) (names : List String) : Finset String :=
  names.foldl (fun a n => a.erase n) u

/-- `fs.unlinkSync` applied to each filename in order, as in the handlers'
cleanup loops (`req.files.forEach(file => fs.unlinkSync(file.path))`).
`unlinkSync` throws on a missing file; the Boolean records whether the loop
completed without throwing, and the set is the directory at the moment the
loop stopped. -/
def unlinkEach (u : Finset String) : List String → Bool × Finset String
  | [] => (true, u)
  | n :: ns => if n ∈ u then unlinkEach (u.erase n) ns else (false, u)

/-- `if (fs.existsSync(imagePath)) fs.unlinkSync(imagePath)` from the delete
handler: remove the file when present, silently skip when absent. -/
def unlinkIfExists (u : Finset String) (f : String) : Finset String :=
  if f ∈ u then u.erase f else u

/-- The delete handler's per-image cleanup loop over `product.images`. -/
def deleteImages (u : Finset String) (images : List String) : Finset String :=
  images.foldl unlinkIfExists u

/-- Modelled from the spec: multer's internal batch processing is library
code, not part of `server.js`.  Per the MediaIngestor contract it handles
files sequentially, durably writing each accepted file under its generated
name and, on the first file that fails validation, failing the whole batch
and reclaiming the files already written (best-effort cleanup).  The
per-file validation predicate (`fileAllowed`, `maxFileSize`) is embedded
from the configuration in `server.js`.  Each candidate is paired with the
storage name generated for it by the `diskStorage.filename` callback. -/
def ingestGo (u : Finset String) (written : List String) :
    List (CandidateFile × String) → Option (List String) × Finset String
  | [] => (some written, u)
  | (f, nm) :: rest =>
    if fileAllowed f = true ∧ f.size ≤ maxFileSize then
      ingestGo (insert nm u) (written ++ [nm]) rest
    else
      (none, unlinkAll u written)

/-- Modelled from the spec: the full MediaIngestor batch operation, adding
the count ceiling from `upload.array('images', 10)`; a batch over the limit
is rejected with nothing durably written. -/
def ingestBatch (u : Finset String) (cand : List (CandidateFile × String)) :
    Option (List String) × Finset String :=
  if maxFiles < cand.length then (none, u)
  else ingestGo u [] cand

/-- `GET /api/products/:id`: first product with `p.id == req.params.id`. -/
def getProduct (st : ServerState) (pid : String) : Option Product :=
  st.products.find? (fun p => p.id == pid)

/-- The `newProduct` object literal built by `POST /api/products`: exactly
the keys `id`, `name`, `price`, `description`, `images` (no `stock`, no
`pinned`). -/
def newProductRecord (newId : String) (body : RequestBody)
    (names : List String) : Product :=
  { id := newId
    name := body.name
    price := parseFloatJS body.price
    description := body.description.getD ""
    images := names
    stock := none
    pinned := none }

/-- `POST /api/products` after multer has stored `names`: validation
(`!name || !price || !req.files || req.files.length === 0`), cleanup of the
just-stored files on failure, otherwise push the new record and
`saveDatabase()`.  An exception from the cleanup loop is caught by the
handler's `catch` and surfaces as a 500. -/
def createCore (st : ServerState) (newId : String) (body : RequestBody)
    (names : List String) : HandlerResult × ServerState :=
  if truthy body.name = false ∨ truthy body.price = false ∨ names = [] then
    let r := unlinkEach st.uploads names
    if r.1 then
      (.error 400 "Name, price, and at least one image are required",
        { st with uploads := r.2 })
    else
      (.error 500 "Internal server error", { st with uploads := r.2 })
  else
    let p := newProductRecord newId body names
    let ps := st.products ++ [p]
    (.ok 201 p, { st with products := ps, disk := ps })

/-- The `updatedProduct` spread `{ ...old, name, price: parseFloat(price),
description: description || '', images }` where
`images = [...old.images, ...req.files.map(f => f.filename)]`.  Note the
spread carries `stock` and `pinned` over from the old record and the
request's `existingImages` field is never consulted. -/
def updatedRecord (body : RequestBody) (names : List String)
    (old : Product) : Product :=
  { old with
    name := body.name
    price := parseFloatJS body.price
    description := body.description.getD ""
    images := old.images ++ names }

/-- `findIndex` followed by assignment at that index: replace the first
product whose id matches, returning the new record and the new list. -/
def updateFirst (pid : String) (f : Product → Product) :
    List Product → Option (Product × List Product)
  | [] => none
  | p :: ps =>
    if p.id == pid then some (f p, f p :: ps)
    else
      match updateFirst pid f ps with
      | none => none
      | some (q, ps2) => some (q, p :: ps2)

/-- `POST /api/products/:id` after multer has stored `names`: not-found
cleanup of the just-stored files, otherwise wholesale replacement at the
found index and `saveDatabase()`. -/
def updateCore (st : ServerState) (pid : String) (body : RequestBody)
    (names : List String) : HandlerResult × ServerState :=
  match updateFirst pid (updatedRecord body names) st.products with
  | none =>
    let r := unlinkEach st.uploads names
    if r.1 then
      (.error 404 "Product not found", { st with uploads := r.2 })
    else
      (.error 500 "Internal server error", { st with uploads := r.2 })
  | some (q, ps) => (.ok 200 q, { st with products := ps, disk := ps })

/-- `findIndex` followed by `splice(index, 1)`: remove the first product
whose id matches, returning it and the remaining list. -/
def removeFirst (pid : String) :
    List Product → Option (Product × List Product)
  | [] => none
  | p :: ps =>
    if p.id == pid then some (p, ps)
    else
      match removeFirst pid ps with
      | none => none
      | some (q, ps2) => some (q, p :: ps2)

/-- `DELETE /api/products/:id`: 404 when the id does not resolve, otherwise
delete each listed image that exists on disk, splice the product out and
`saveDatabase()`. -/
def handleDelete (st : ServerState) (pid : String) :
    HandlerResult × ServerState :=
  match removeFirst pid st.products with
  | none => (.error 404 "Product not found", st)
  | some (p, rest) =>
    (.message 200 "Product deleted successfully",
      { products := rest, disk := rest,
        uploads := deleteImages st.uploads p.images })

/-- The whole `POST /api/products` request: multer ingestion (a multer
error is passed to the error-handling middleware, which answers 500), then
the create handler.  `newId` stands for the generated
`Date.now().toString()`. -/
def handleCreate (st : ServerState) (newId : String) (body : RequestBody)
    (cand : List (CandidateFile × String)) : HandlerResult × ServerState :=
  match ingestBatch st.uploads cand with
  | (none, u) => (.error 500 "Something went wrong!", { st with uploads := u })
  | (some names, u) => createCore { st with uploads := u } newId body names

/-- The whole `POST /api/products/:id` request: multer ingestion, then the
update handler. -/
def handleUpdate (st : ServerState) (pid : String) (body : RequestBody)
    (cand : List (CandidateFile × String)) : HandlerResult × ServerState :=
  match ingestBatch st.uploads cand with
  | (none, u) => (.error 500 "Something went wrong!", { st with uploads := u })
  | (some names, u) => updateCore { st with uploads := u } pid body names

theorem writeAll_nil (u : Finset String) : writeAll u [] = u := rfl

theorem writeAll_cons (u : Finset String) (n : String) (ns : List String) :
    writeAll u (n :: ns) = writeAll (insert n u) ns := rfl

theorem unlinkAll_nil (u : Finset String) : unlinkAll u [] = u := rfl

theorem unlinkAll_cons (u : Finset String) (n : String) (ns : List String) :
    unlinkAll u (n :: ns) = unlinkAll (u.erase n) ns := rfl

theorem mem_writeAll (ns : List String) (u : Finset String) (x : String) :
    x ∈ writeAll u ns ↔ x ∈ u ∨ x ∈ ns := by
  induction ns generalizing u with
  | nil => simp [writeAll_nil]
  | cons n ns ih =>
    rw [writeAll_cons, ih]
    simp [Finset.mem_insert]
    tauto

theorem mem_unlinkAll (ns : List String) (u : Finset String) (x : String) :
    x ∈ unlinkAll u ns ↔ x ∈ u ∧ x ∉ ns := by
  induction ns generalizing u with
  | nil => simp [unlinkAll_nil]
  | cons n ns ih =>
    rw [unlinkAll_cons, ih]
    simp [Finset.mem_erase]
    tauto

theorem unlinkIfExists_eq_erase (u : Finset String) (f : String) :
    unlinkIfExists u f = u.erase f := by
  unfold unlinkIfExists
  split
  · rfl
  · rw [Finset.erase_eq_of_not_mem (by assumption)]

theorem deleteImages_eq_unlinkAll (l : List String) (u : Finset String) :
    deleteImages u l = unlinkAll u l := by
  induction l generalizing u with
  | nil => rfl
  | cons n l ih =>
    show deleteImages (unlinkIfExists u n) l = _
    rw [unlinkIfExists_eq_erase, ih, unlinkAll_cons]

theorem mem_deleteImages (l : List String) (u : Finset String) (x : String) :
    x ∈ deleteImages u l ↔ x ∈ u ∧ x ∉ l := by
  rw [deleteImages_eq_unlinkAll, mem_unlinkAll]

/-- Reclaiming exactly the filenames just written restores the directory,
provided those names were fresh. -/
theorem unlinkAll_writeAll (ns : List String) (u : Finset String)
    (hfresh : ∀ n ∈ ns, n ∉ u) :
    unlinkAll (writeAll u ns) ns = u := by
  apply Finset.ext
  intro x
  rw [mem_unlinkAll, mem_writeAll]
  constructor
  · rintro ⟨hx | hx, hnx⟩
    · exact hx
    · exact absurd hx hnx
  · intro hx
    exact ⟨Or.inl hx, fun hxs => hfresh x hxs hx⟩

/-- The fallible `unlinkSync` loop succeeds and restores the directory when
applied to exactly the distinct fresh filenames just written. -/
theorem unlinkEach_writeAll (ns : List String) (u : Finset String)
    (hnd : ns.Nodup) (hfresh : ∀ n ∈ ns, n ∉ u) :
    unlinkEach (writeAll u ns) ns = (true, u) := by
  induction ns generalizing u with
  | nil => rfl
  | cons n ns ih =>
    rw [writeAll_cons]
    have hnd' := List.nodup_cons.mp hnd
    have hmem : n ∈ writeAll (insert n u) ns := by
      rw [mem_writeAll]
      exact Or.inl (Finset.mem_insert_self n u)
    show unlinkEach _ (n :: ns) = _
    rw [unlinkEach, if_pos hmem]
    have herase : (writeAll (insert n u) ns).erase n = writeAll u ns := by
      apply Finset.ext
      intro x
      rw [Finset.mem_erase, mem_writeAll, mem_writeAll, Finset.mem_insert]
      constructor
      · rintro ⟨hxn, hx | hx⟩
        · rcases hx with hx | hx
          · exact absurd hx hxn
          · exact Or.inl hx
        · exact Or.inr hx
      · intro hx
        refine ⟨?_, ?_⟩
        · intro hxn
          rcases hx with hx | hx
          · exact hfresh n (by simp) (by rwa [hxn] at hx)
          · exact hnd'.1 (by rwa [hxn] at hx)
        · rcases hx with hx | hx
          · exact Or.inl (Or.inr hx)
          · exact Or.inr hx
    rw [herase]
    exact ih u hnd'.2 (fun m hm => hfresh m (List.mem_cons_of_mem _ hm))

/-- A batch whose files all pass validation is stored in order. -/
theorem ingestGo_ok (cand : List (CandidateFile × String)) :
    ∀ (u : Finset String) (w : List String),
    (∀ q ∈ cand, fileAllowed q.1 = true ∧ q.1.size ≤ maxFileSize) →
    ingestGo u w cand =
      (some (w ++ cand.map Prod.snd), writeAll u (cand.map Prod.snd)) := by
  induction cand with
  | nil => intro u w _; simp [ingestGo, writeAll_nil]
  | cons q rest ih =>
    intro u w h
    obtain ⟨f, nm⟩ := q
    have hq := h (f, nm) (by simp)
    rw [ingestGo, if_pos hq, ih _ _ (fun r hr => h r (List.mem_cons_of_mem _ hr))]
    simp [writeAll_cons]

/-- A batch containing an invalid file is rejected. -/
theorem ingestGo_none (cand : List (CandidateFile × String)) :
    ∀ (u : Finset String) (w : List String),
    (∃ q ∈ cand, ¬(fileAllowed q.1 = true ∧ q.1.size ≤ maxFileSize)) →
    (ingestGo u w cand).1 = none := by
  induction cand with
  | nil => intro u w h; simp at h
  | cons q rest ih =>
    intro u w h
    obtain ⟨f, nm⟩ := q
    by_cases hv : fileAllowed f = true ∧ f.size ≤ maxFileSize
    · rw [ingestGo, if_pos hv]
      apply ih
      obtain ⟨r, hr, hbad⟩ := h
      rcases List.mem_cons.mp hr with rfl | hr
      · exact absurd hv hbad
      · exact ⟨r, hr, hbad⟩
    · rw [ingestGo, if_neg hv]

/-- When a batch is rejected, the rollback leaves the media directory with
exactly the outer accumulator removed; from the top-level call this means
the directory is unchanged. -/
theorem ingestGo_fail (cand : List (CandidateFile × String)) :
    ∀ (u : Finset String) (w : List String),
    (cand.map Prod.snd).Nodup →
    (∀ q ∈ cand, q.2 ∉ u) →
    (∀ q ∈ cand, q.2 ∉ w) →
    (ingestGo u w cand).1 = none →
    (ingestGo u w cand).2 = unlinkAll u w := by
  induction cand with
  | nil =>
    intro u w _ _ _ hfail
    simp [ingestGo] at hfail
  | cons q rest ih =>
    intro u w hnd hu hw hfail
    obtain ⟨f, nm⟩ := q
    rw [List.map_cons, List.nodup_cons] at hnd
    have hnd' := hnd
    by_cases hv : fileAllowed f = true ∧ f.size ≤ maxFileSize
    · rw [ingestGo, if_pos hv] at hfail ⊢
      have hu' : ∀ r ∈ rest, r.2 ∉ insert nm u := by
        intro r hr
        rw [Finset.mem_insert]
        rintro (h1 | h1)
        · exact hnd'.1 (h1 ▸ List.mem_map.mpr ⟨r, hr, rfl⟩)
        · exact hu r (List.mem_cons_of_mem _ hr) h1
      have hw' : ∀ r ∈ rest, r.2 ∉ w ++ [nm] := by
        intro r hr
        rw [List.mem_append]
        rintro (h1 | h1)
        · exact hw r (List.mem_cons_of_mem _ hr) h1
        · exact hnd'.1 ((List.mem_singleton.mp h1) ▸ List.mem_map.mpr ⟨r, hr, rfl⟩)
      rw [ih _ _ hnd'.2 hu' hw' hfail]
      apply Finset.ext
      intro x
      rw [mem_unlinkAll, mem_unlinkAll, Finset.mem_insert, List.mem_append]
      constructor
      · rintro ⟨h1 | h1, h2⟩
        · exact absurd (Or.inr (List.mem_singleton.mpr h1)) h2
        · exact ⟨h1, fun h3 => h2 (Or.inl h3)⟩
      · rintro ⟨h1, h2⟩
        refine ⟨Or.inr h1, ?_⟩
        rintro (h3 | h3)
        · exact h2 h3
        · exact hu (f, nm) (by simp) ((List.mem_singleton.mp h3) ▸ h1)
    · rw [ingestGo, if_neg hv] at hfail ⊢

/-- Successful whole-batch ingestion. -/
theorem ingestBatch_ok (u : Finset String) (cand : List (CandidateFile × String))
    (hlen : cand.length ≤ maxFiles)
    (hvalid : ∀ q ∈ cand, fileAllowed q.1 = true ∧ q.1.size ≤ maxFileSize) :
    ingestBatch u cand =
      (some (cand.map Prod.snd), writeAll u (cand.map Prod.snd)) := by
  rw [ingestBatch, if_neg (by omega)]
  simpa using ingestGo_ok cand u [] hvalid

/-- A rejected batch leaves the media directory exactly as it was. -/
theorem ingestBatch_reject (u : Finset String) (cand : List (CandidateFile × String))
    (hnd : (cand.map Prod.snd).Nodup)
    (hfresh : ∀ q ∈ cand, q.2 ∉ u)
    (hbad : maxFiles < cand.length ∨
      ∃ q ∈ cand, ¬(fileAllowed q.1 = true ∧ q.1.size ≤ maxFileSize)) :
    ingestBatch u cand = (none, u) := by
  by_cases hlen : maxFiles < cand.length
  · rw [ingestBatch, if_pos hlen]
  · have hbad' := hbad.resolve_left hlen
    rw [ingestBatch, if_neg hlen]
    have h1 := ingestGo_none cand u [] hbad'
    have h2 := ingestGo_fail cand u [] hnd hfresh (by simp) h1
    rw [Prod.ext_iff]
    exact ⟨h1, by simpa [unlinkAll_nil] using h2⟩

theorem find?_append_singleton (l : List Product) (p : Product)
    (pf : Product → Bool) (hl : ∀ q ∈ l, pf q = false) (hp : pf p = true) :
    List.find? pf (l ++ [p]) = some p := by
  induction l with
  | nil => simp [List.find?, hp]
  | cons a l ih =>
    have ha := hl a (by simp)
    rw [List.cons_append, List.find?_cons, ha]
    exact ih (fun q hq => hl q (List.mem_cons_of_mem _ hq))

theorem updateFirst_eq_none (pid : String) (f : Product → Product)
    (l : List Product) :
    updateFirst pid f l = none ↔
      l.find? (fun p => p.id == pid) = none := by
  induction l with
  | nil => simp [updateFirst, List.find?]
  | cons a l ih =>
    cases ha : (a.id == pid) with
    | true => simp [updateFirst, List.find?_cons, ha]
    | false =>
      simp only [updateFirst, List.find?_cons, ha, Bool.false_eq_true,
        if_false]
      cases hr : updateFirst pid f l with
      | none => simp [ih.mp hr]
      | some q => simp [← ih, hr]

theorem updateFirst_of_find? (pid : String) (f : Product → Product)
    (l : List Product) (p : Product)
    (h : l.find? (fun q => q.id == pid) = some p) :
    ∃ l2, updateFirst pid f l = some (f p, l2) := by
  induction l with
  | nil => simp [List.find?] at h
  | cons a l ih =>
    rw [List.find?_cons] at h
    cases ha : (a.id == pid) with
    | true =>
      rw [ha] at h
      injection h with h
      subst h
      exact ⟨f a :: l, by rw [updateFirst, if_pos ha]⟩
    | false =>
      rw [ha] at h
      obtain ⟨l2, hl2⟩ := ih h
      refine ⟨a :: l2, ?_⟩
      rw [updateFirst, if_neg (by simp [ha]), hl2]

theorem removeFirst_of_find? (pid : String) (l : List Product) (p : Product)
    (h : l.find? (fun q => q.id == pid) = some p) :
    ∃ rest, removeFirst pid l = some (p, rest) := by
  induction l with
  | nil => simp [List.find?] at h
  | cons a l ih =>
    rw [List.find?_cons] at h
    cases ha : (a.id == pid) with
    | true =>
      rw [ha] at h
      injection h with h
      subst h
      exact ⟨l, by rw [removeFirst, if_pos ha]⟩
    | false =>
      rw [ha] at h
      obtain ⟨rest, hrest⟩ := ih h
      refine ⟨a :: rest, ?_⟩
      rw [removeFirst, if_neg (by simp [ha]), hrest]

theorem removeFirst_eq_none (pid : String) (l : List Product) :
    removeFirst pid l = none ↔
      l.find? (fun p => p.id == pid) = none := by
  induction l with
  | nil => simp [removeFirst, List.find?]
  | cons a l ih =>
    cases ha : (a.id == pid) with
    | true => simp [removeFirst, List.find?_cons, ha]
    | false =>
      simp only [removeFirst, List.find?_cons, ha, Bool.false_eq_true,
        if_false]
      cases hr : removeFirst pid l with
      | none => simp [ih.mp hr]
      | some q => simp [← ih, hr]

/-- After removing the first product with a matching id from a list with
pairwise-distinct ids, no further product matches. -/
theorem removeFirst_find?_none (pid : String) (l : List Product)
    (p : Product) (rest : List Product)
    (hnd : (l.map (fun q => q.id)).Nodup)
    (h : removeFirst pid l = some (p, rest)) :
    rest.find? (fun q => q.id == pid) = none := by
  induction l generalizing rest with
  | nil => simp [removeFirst] at h
  | cons a l ih =>
    rw [List.map_cons, List.nodup_cons] at hnd
    have hnd' := hnd
    rw [removeFirst] at h
    cases ha : (a.id == pid) with
    | true =>
      rw [if_pos ha] at h
      injection h with h
      injection h with h1 h2
      subst h2
      rw [List.find?_eq_none]
      intro q hq hqid
      have h3 : q.id = pid := by simpa using hqid
      have h4 : a.id = pid := by simpa using ha
      exact hnd'.1 (by rw [h4, ← h3]; exact List.mem_map.mpr ⟨q, hq, rfl⟩)
    | false =>
      rw [if_neg (by simp [ha])] at h
      cases hr : removeFirst pid l with
      | none => rw [hr] at h; exact absurd h (by simp)
      | some q =>
        rw [hr] at h
        obtain ⟨q1, rest1⟩ := q
        injection h with h
        injection h with h1 h2
        subst h1
        subst h2
        rw [List.find?_cons, ha]
        exact ih rest1 hnd'.2 hr

/-- C2: for every product id present in the store (ids pairwise distinct),
Delete(id) succeeds with the documented message, a subsequent Get(id) no
longer finds the product, and none of the product's former image files
remain in the media directory. -/
theorem delete_cascades (st : ServerState) (pid : String) (p : Product)
    (hnd : (st.products.map (fun q => q.id)).Nodup)
    (hget : getProduct st pid = some p) :
    (handleDelete st pid).1 = .message 200 "Product deleted successfully" ∧
    getProduct (handleDelete st pid).2 pid = none ∧
    ∀ f ∈ p.images, f ∉ (handleDelete st pid).2.uploads := by
  obtain ⟨rest, hrf⟩ := removeFirst_of_find? pid st.products p hget
  simp only [handleDelete, hrf]
  refine ⟨trivial, ?_, ?_⟩
  · exact removeFirst_find?_none pid st.products p rest hnd hrf
  · intro f hf hmem
    rw [mem_deleteImages] at hmem
    exact hmem.2 hf

/-- C9: deleting a product one of whose listed image files is already
absent from the media directory still succeeds: the missing file is treated
as already deleted, every listed image is gone afterwards, and files not
listed by the product are untouched. -/
theorem delete_missing_file_idempotent (st : ServerState) (pid : String)
    (p : Product) (f0 : String)
    (hget : getProduct st pid = some p)
    (hf0 : f0 ∈ p.images) (habs : f0 ∉ st.uploads) :
    (handleDelete st pid).1 = .message 200 "Product deleted successfully" ∧
    (∀ f ∈ p.images, f ∉ (handleDelete st pid).2.uploads) ∧
    (∀ g, g ∉ p.images →
      ((g ∈ (handleDelete st pid).2.uploads) ↔ g ∈ st.uploads)) := by
  obtain ⟨rest, hrf⟩ := removeFirst_of_find? pid st.products p hget
  simp only [handleDelete, hrf]
  refine ⟨trivial, ?_, ?_⟩
  · intro f hf hmem
    rw [mem_deleteImages] at hmem
    exact hmem.2 hf
  · intro g hg
    rw [mem_deleteImages]
    exact ⟨fun h => h.1, fun h => ⟨h, hg⟩⟩

/-- C3: a Create request whose name or price is missing/empty, or which
carries no files, fails with the 400 validation message and leaves the
whole server state — product collection, persisted document and media
directory — exactly as it was before the request (the files ingested
during the request are reclaimed).  The generated storage names are
pairwise distinct and fresh, per the naming scheme. -/
theorem create_validation_failure_no_orphan (st : ServerState)
    (newId : String) (body : RequestBody)
    (cand : List (CandidateFile × String))
    (hnd : (cand.map Prod.snd).Nodup)
    (hfresh : ∀ q ∈ cand, q.2 ∉ st.uploads)
    (hlen : cand.length ≤ maxFiles)
    (hvalid : ∀ q ∈ cand, fileAllowed q.1 = true ∧ q.1.size ≤ maxFileSize)
    (hbad : truthy body.name = false ∨ truthy body.price = false ∨
      cand = []) :
    handleCreate st newId body cand =
      (.error 400 "Name, price, and at least one image are required", st) := by
  have hfresh' : ∀ n ∈ cand.map Prod.snd, n ∉ st.uploads := by
    intro n hn
    obtain ⟨q, hq, rfl⟩ := List.mem_map.mp hn
    exact hfresh q hq
  have hre := unlinkEach_writeAll (cand.map Prod.snd) st.uploads hnd hfresh'
  have hbad' : truthy body.name = false ∨ truthy body.price = false ∨
      cand.map Prod.snd = [] := by
    rcases hbad with h | h | h
    · exact Or.inl h
    · exact Or.inr (Or.inl h)
    · exact Or.inr (Or.inr (by rw [h]; rfl))
  simp only [handleCreate, ingestBatch_ok st.uploads cand hlen hvalid,
    createCore, if_pos hbad', hre]
  simp

/-- C4: an Update request on an id that resolves to no product fails with
the 404 message and leaves the whole server state — product collection,
persisted document and media directory — exactly as it was before the
request (the files ingested during the request are reclaimed). -/
theorem update_not_found_no_orphan (st : ServerState) (pid : String)
    (body : RequestBody) (cand : List (CandidateFile × String))
    (hnd : (cand.map Prod.snd).Nodup)
    (hfresh : ∀ q ∈ cand, q.2 ∉ st.uploads)
    (hlen : cand.length ≤ maxFiles)
    (hvalid : ∀ q ∈ cand, fileAllowed q.1 = true ∧ q.1.size ≤ maxFileSize)
    (hnf : getProduct st pid = none) :
    handleUpdate st pid body cand = (.error 404 "Product not found", st) := by
  have hfresh' : ∀ n ∈ cand.map Prod.snd, n ∉ st.uploads := by
    intro n hn
    obtain ⟨q, hq, rfl⟩ := List.mem_map.mp hn
    exact hfresh q hq
  have hre := unlinkEach_writeAll (cand.map Prod.snd) st.uploads hnd hfresh'
  have hup : updateFirst pid
      (updatedRecord body (cand.map Prod.snd)) st.products = none :=
    (updateFirst_eq_none pid _ st.products).mpr hnf
  simp only [handleUpdate, ingestBatch_ok st.uploads cand hlen hvalid,
    updateCore, hup, hre]
  simp

/-- C5: a valid Create (truthy name and price, at least one accepted file,
fresh generated id) returns 201 with the new record, an immediate Get on
the generated id returns that same record, and the record's image list has
one entry per accepted upload. -/
theorem create_get_round_trip (st : ServerState) (newId : String)
    (body : RequestBody) (cand : List (CandidateFile × String))
    (hname : truthy body.name = true)
    (hprice : truthy body.price = true)
    (hfiles : cand ≠ [])
    (hlen : cand.length ≤ maxFiles)
    (hvalid : ∀ q ∈ cand, fileAllowed q.1 = true ∧ q.1.size ≤ maxFileSize)
    (hid : ∀ q ∈ st.products, (q.id == newId) = false) :
    (handleCreate st newId body cand).1 =
      .ok 201 (newProductRecord newId body (cand.map Prod.snd)) ∧
    getProduct (handleCreate st newId body cand).2 newId =
      some (newProductRecord newId body (cand.map Prod.snd)) ∧
    (newProductRecord newId body (cand.map Prod.snd)).images.length =
      cand.length := by
  have hcond : ¬(truthy body.name = false ∨ truthy body.price = false ∨
      cand.map Prod.snd = []) := by
    rintro (h | h | h)
    · rw [hname] at h; exact Bool.true_eq_false.mp h
    · rw [hprice] at h; exact Bool.true_eq_false.mp h
    · exact hfiles (List.map_eq_nil_iff.mp h)
  simp only [handleCreate, ingestBatch_ok st.uploads cand hlen hvalid,
    createCore, if_neg hcond]
  refine ⟨trivial, ?_, by simp [newProductRecord]⟩
  show List.find? _ (st.products ++ [newProductRecord newId body _]) = _
  exact find?_append_singleton st.products _ _ hid
    (by simp [newProductRecord])

/-- C10: when the id resolves, Update always answers 200 — there is no
validation on the update path.  The stored record takes `name` directly
from the request body (so a missing name stores `undefined`) and `price`
from `parseFloat` of the body field (so a missing or non-numeric price
stores NaN, embedded as `none`). -/
theorem update_skips_validation (st : ServerState) (pid : String)
    (body : RequestBody) (cand : List (CandidateFile × String))
    (old : Product)
    (hget : getProduct st pid = some old)
    (hlen : cand.length ≤ maxFiles)
    (hvalid : ∀ q ∈ cand, fileAllowed q.1 = true ∧ q.1.size ≤ maxFileSize) :
    (∃ l2, handleUpdate st pid body cand =
      (.ok 200 (updatedRecord body (cand.map Prod.snd) old),
        { products := l2, disk := l2,
          uploads := writeAll st.uploads (cand.map Prod.snd) })) ∧
    (updatedRecord body (cand.map Prod.snd) old).name = body.name ∧
    (updatedRecord body (cand.map Prod.snd) old).price =
      parseFloatJS body.price ∧
    parseFloatJS none = none ∧
    parseFloatJS (some "not a number") = none := by
  obtain ⟨l2, hl2⟩ := updateFirst_of_find? pid
    (updatedRecord body (cand.map Prod.snd)) st.products old hget
  refine ⟨⟨l2, ?_⟩, rfl, rfl, rfl, by decide⟩
  simp only [handleUpdate, ingestBatch_ok st.uploads cand hlen hvalid,
    updateCore, hl2]

/-- C8: a batch in which any file has a non-`image/*` declared type or
exceeds the size ceiling, or which has more than `maxFiles` files, is
rejected as a whole and leaves the media directory's file set exactly as
it was: no file of the batch — including siblings that individually passed
validation — remains. -/
theorem ingest_rejects_batch_atomically (u : Finset String)
    (cand : List (CandidateFile × String))
    (hnd : (cand.map Prod.snd).Nodup)
    (hfresh : ∀ q ∈ cand, q.2 ∉ u)
    (hbad : maxFiles < cand.length ∨
      ∃ q ∈ cand, ¬(fileAllowed q.1 = true ∧ q.1.size ≤ maxFileSize)) :
    ingestBatch u cand = (none, u) :=
  ingestBatch_reject u cand hnd hfresh hbad

/-- A stored product with one image, used to exercise the update path. -/
def prodC1 : Product :=
  { id := "1", name := some "Shirt", price := none, description := "",
    images := ["a"], stock := none, pinned := none }

/-- State holding `prodC1`, its image present on disk. -/
def stC1 : ServerState :=
  { products := [prodC1], disk := [prodC1], uploads := {"a"} }

/-- Update request declaring an empty kept-image list and no new uploads. -/
def bodyC1 : RequestBody :=
  { name := some "Shirt", price := none, description := none,
    stock := none, pinned := none, existingImages := [] }

/-- The record the code actually stores for the C1 failing input. -/
def expC1 : Product :=
  { id := "1", name := some "Shirt", price := none, description := "",
    images := ["a"], stock := none, pinned := none }

/-- The record the claim predicts for the C1 failing input (kept list
honored, hence an empty image list). -/
def expC1claim : Product :=
  { id := "1", name := some "Shirt", price := none, description := "",
    images := [], stock := none, pinned := none }

/-- C1 (failing input): the update handler never reads
`req.body.existingImages`.  Updating product 1 with an empty kept list and
no uploads returns the prior images `["a"]`, not the declared kept list
`[]`. -/
theorem update_ignores_kept_image_list :
    (handleUpdate stC1 "1" bodyC1 []).1 = .ok 200 expC1 ∧
    bodyC1.existingImages = [] ∧
    (handleUpdate stC1 "1" bodyC1 []).2.products.map (fun p => p.images) =
      [["a"]] ∧
    (handleUpdate stC1 "1" bodyC1 []).1 ≠ .ok 200 expC1claim := by
  decide

/-- Empty store for the create path. -/
def stC6 : ServerState := { products := [], disk := [], uploads := ∅ }

/-- Create request that supplies `stock` and `pinned` form fields. -/
def bodyC6 : RequestBody :=
  { name := some "Shirt", price := some "100000", description := none,
    stock := some "5", pinned := some "true", existingImages := [] }

/-- One valid image upload with its generated storage name. -/
def candC6 : List (CandidateFile × String) :=
  [({ originalname := "a.png", mimetype := "image/png", size := 1000 },
    "161-1.png")]

/-- The record the code actually stores for the C6 failing input. -/
def expC6 : Product :=
  { id := "77", name := some "Shirt", price := parseFloatJS (some "100000"),
    description := "", images := ["161-1.png"], stock := none,
    pinned := none }

/-- C6 (failing input): the `newProduct` literal has no `stock` or `pinned`
key, even when the request supplies both fields; the created record stores
neither a defaulted 0 stock nor a defaulted false pin flag. -/
theorem create_drops_stock_and_pinned :
    (handleCreate stC6 "77" bodyC6 candC6).1 = .ok 201 expC6 ∧
    bodyC6.stock = some "5" ∧ bodyC6.pinned = some "true" ∧
    (handleCreate stC6 "77" bodyC6 candC6).2.products.map
      (fun p => p.stock) = [none] ∧
    (handleCreate stC6 "77" bodyC6 candC6).2.products.map
      (fun p => p.pinned) = [none] := by
  decide

/-- A stored product carrying `stock` and `pinned` keys (reachable state:
`loadDatabase` parses whatever `database.json` holds). -/
def prodC7 : Product :=
  { id := "3", name := some "Old", price := none, description := "",
    images := ["a"], stock := some 5, pinned := some true }

/-- State holding `prodC7`. -/
def stC7 : ServerState :=
  { products := [prodC7], disk := [prodC7], uploads := {"a"} }

/-- Update request supplying new `stock` and `pinned` values. -/
def bodyC7 : RequestBody :=
  { name := some "New", price := none, description := some "d",
    stock := some "7", pinned := some "false", existingImages := ["a"] }

/-- The record the code actually stores for the C7 failing input: the old
stock and pin flag survive, the submitted ones are dropped. -/
def expC7 : Product :=
  { id := "3", name := some "New", price := none, description := "d",
    images := ["a"], stock := some 5, pinned := some true }

/-- C7 (failing input): the update spread `{ ...old, name, price,
description, images }` carries the old `stock` and `pinned` over unchanged
— the submitted `stock = "7"` and `pinned = "false"` are dropped.  The
persisted document does equal the in-memory collection on return. -/
theorem update_retains_old_stock_and_pinned :
    (handleUpdate stC7 "3" bodyC7 []).1 = .ok 200 expC7 ∧
    bodyC7.stock = some "7" ∧ bodyC7.pinned = some "false" ∧
    (handleUpdate stC7 "3" bodyC7 []).2.disk =
      (handleUpdate stC7 "3" bodyC7 []).2.products := by
  decide

/-- Fixture product for the delete-cascade witness. -/
def prodW2 : Product :=
  { id := "1", name := some "Shirt", price := none, description := "",
    images := ["a", "b"], stock := none, pinned := none }

/-- Fixture state: one product, its two images plus an unrelated file. -/
def stW2 : ServerState :=
  { products := [prodW2], disk := [prodW2], uploads := {"a", "b", "c"} }

/-- Witness instantiating `delete_cascades` at a concrete state. -/
theorem delete_cascades_witness :
    (handleDelete stW2 "1").1 = .message 200 "Product deleted successfully" ∧
    getProduct (handleDelete stW2 "1").2 "1" = none ∧
    "a" ∉ (handleDelete stW2 "1").2.uploads := by
  have h := delete_cascades stW2 "1" prodW2 (by decide) (by decide)
  exact ⟨h.1, h.2.1, h.2.2 "a" (by decide)⟩

/-- Empty fixture state for the create-validation witness. -/
def stW3 : ServerState := { products := [], disk := [], uploads := ∅ }

/-- Create request with a missing name but a valid price. -/
def bodyW3 : RequestBody :=
  { name := none, price := some "10", description := none,
    stock := none, pinned := none, existingImages := [] }

/-- One valid upload accompanying the invalid create request. -/
def candW3 : List (CandidateFile × String) :=
  [({ originalname := "a.png", mimetype := "image/png", size := 100 },
    "n1.png")]

/-- Witness instantiating `create_validation_failure_no_orphan`. -/
theorem create_validation_failure_no_orphan_witness :
    handleCreate stW3 "5" bodyW3 candW3 =
      (.error 400 "Name, price, and at least one image are required",
        stW3) :=
  create_validation_failure_no_orphan stW3 "5" bodyW3 candW3
    (by decide) (by decide) (by decide) (by decide) (by decide)

/-- Empty fixture state for the update-not-found witness. -/
def stW4 : ServerState := { products := [], disk := [], uploads := ∅ }

/-- A fully valid update body (the id simply does not resolve). -/
def bodyW4 : RequestBody :=
  { name := some "X", price := some "1", description := none,
    stock := none, pinned := none, existingImages := [] }

/-- One valid upload accompanying the not-found update request. -/
def candW4 : List (CandidateFile × String) :=
  [({ originalname := "b.png", mimetype := "image/png", size := 100 },
    "n2.png")]

/-- Witness instantiating `update_not_found_no_orphan`. -/
theorem update_not_found_no_orphan_witness :
    handleUpdate stW4 "42" bodyW4 candW4 =
      (.error 404 "Product not found", stW4) :=
  update_not_found_no_orphan stW4 "42" bodyW4 candW4
    (by decide) (by decide) (by decide) (by decide) (by decide)

/-- Empty fixture state for the round-trip witness. -/
def stW5 : ServerState := { products := [], disk := [], uploads := ∅ }

/-- A valid create request body. -/
def bodyW5 : RequestBody :=
  { name := some "Shirt", price := some "100000",
    description := some "nice", stock := none, pinned := none,
    existingImages := [] }

/-- One accepted upload for the round-trip witness. -/
def candW5 : List (CandidateFile × String) :=
  [({ originalname := "a.png", mimetype := "image/png", size := 1234 },
    "n3.png")]

/-- Witness instantiating `create_get_round_trip`. -/
theorem create_get_round_trip_witness :
    (handleCreate stW5 "9" bodyW5 candW5).1 =
      .ok 201 (newProductRecord "9" bodyW5 (candW5.map Prod.snd)) ∧
    getProduct (handleCreate stW5 "9" bodyW5 candW5).2 "9" =
      some (newProductRecord "9" bodyW5 (candW5.map Prod.snd)) ∧
    (newProductRecord "9" bodyW5 (candW5.map Prod.snd)).images.length =
      candW5.length :=
  create_get_round_trip stW5 "9" bodyW5 candW5
    (by decide) (by decide) (by decide) (by decide) (by decide) (by decide)

/-- Media directory holding one unrelated file. -/
def uW8 : Finset String := {"keep.png"}

/-- A batch whose second file declares a non-image content type, while the
first file individually passes validation. -/
def candW8 : List (CandidateFile × String) :=
  [({ originalname := "a.png", mimetype := "image/png", size := 100 },
    "n4.png"),
   ({ originalname := "b.txt", mimetype := "text/plain", size := 100 },
    "n5.txt")]

/-- Witness instantiating `ingest_rejects_batch_atomically`. -/
theorem ingest_rejects_batch_atomically_witness :
    ingestBatch uW8 candW8 = (none, uW8) :=
  ingest_rejects_batch_atomically uW8 candW8 (by decide) (by decide)
    (by decide)

/-- Fixture product listing a file that is no longer on disk. -/
def prodW9 : Product :=
  { id := "2", name := some "Shirt", price := none, description := "",
    images := ["gone", "b"], stock := none, pinned := none }

/-- Fixture state: `gone` is listed but absent from the media directory. -/
def stW9 : ServerState :=
  { products := [prodW9], disk := [prodW9], uploads := {"b"} }

/-- Witness instantiating `delete_missing_file_idempotent`. -/
theorem delete_missing_file_idempotent_witness :
    (handleDelete stW9 "2").1 = .message 200 "Product deleted successfully" ∧
    "b" ∉ (handleDelete stW9 "2").2.uploads := by
  have h := delete_missing_file_idempotent stW9 "2" prodW9 "gone"
    (by decide) (by decide) (by decide)
  exact ⟨h.1, h.2.1 "b" (by decide)⟩

/-- Fixture product for the update-without-validation witness. -/
def prodW10 : Product :=
  { id := "4", name := some "Old", price := none, description := "",
    images := ["a"], stock := none, pinned := none }

/-- Fixture state holding `prodW10`. -/
def stW10 : ServerState :=
  { products := [prodW10], disk := [prodW10], uploads := {"a"} }

/-- Update body with both name and price missing. -/
def bodyW10 : RequestBody :=
  { name := none, price := none, description := none,
    stock := none, pinned := none, existingImages := [] }

/-- Witness instantiating `update_skips_validation`: the update succeeds
and stores an undefined name and NaN price. -/
theorem update_skips_validation_witness :
    (handleUpdate stW10 "4" bodyW10 []).1 =
      .ok 200 (updatedRecord bodyW10 [] prodW10) ∧
    (updatedRecord bodyW10 [] prodW10).name = none ∧
    (updatedRecord bodyW10 [] prodW10).price = none := by
  obtain ⟨⟨l2, hl2⟩, hn, hp, h4, h5⟩ := update_skips_validation stW10 "4"
    bodyW10 [] prodW10 (by decide) (by decide) (by decide)
  refine ⟨?_, hn, hp⟩
  rw [hl2]
  rfl

end Zizz
